import Mathlib

/-!
Shallow embedding of the sample-centring and motor-coordination engine of
`GenericDiffractometer.py` (class `GenericDiffractometer`).

Python dicts are modelled as association lists with unique keys; a dict key
that may be either a motor-name string or a motor hardware object is the sum
type `MotorKey`.  Numeric values are rationals.  gevent greenlets are
determinized: a spawned centring procedure is represented by its eventual
outcome (`ProcResult`), event emissions (`self.emit`) are collected into event
lists, and motor commands into `MotorAction` lists.  A trailing `Bool` in a
result means the Python call let an exception escape to its caller.
-/

/-- A motor hardware object (opaque handle identified by its role name). -/
structure MotorObj where
  id : String
deriving DecidableEq, Repr

/-- A key of a `motor_positions` dict: either a role-name string or a motor
hardware object (`move_motors` accepts both). -/
inductive MotorKey
  | name (s : String)
  | obj (m : MotorObj)
deriving DecidableEq, Repr

/-- Outcome of a spawned centring-procedure greenlet, as observed through
`greenlet.get()` in `centring_done`: a motor-position dict keyed by motor
objects, a `GreenletExit` (the greenlet was killed), or a raised exception. -/
inductive ProcResult
  | value (mp : List (MotorObj × Rat))
  | greenletExit
  | exn
deriving DecidableEq, Repr

/-- The `centring_status` dict.  Each optional field models presence of the
corresponding dict key; `method` stores the value of
`current_centring_method` at assignment time. -/
structure CentringStatus where
  valid : Bool
  startTime : Option String
  endTime : Option String
  angleLimit : Option (Option Bool)
  motors : Option (List (String × Rat))
  method : Option String
  accepted : Option Bool
deriving DecidableEq, Repr

/-- The dict literal `{"valid": False}`. -/
def invalidStatus : CentringStatus :=
  { valid := false, startTime := none, endTime := none, angleLimit := none,
    motors := none, method := none, accepted := none }

/-- Events emitted through `self.emit` in `GenericDiffractometer`. -/
inductive Event
  | centringStarted (method : String)
  | centringMoving
  | centringSuccessful (method : Option String) (status : CentringStatus)
  | centringFailed (method : Option String) (status : CentringStatus)
  | centringAccepted (accepted : Bool) (status : CentringStatus)
  | progressMessage (msg : String)
deriving DecidableEq, Repr

/-- Commands issued to motor hardware objects, plus scheduling markers:
`spawnMove` records `gevent.spawn(self.move_motors, ...)`, `waitReady`
records reaching `self.wait_device_ready(15)` at the end of `move_motors`,
and `mainMoveTaskDone` marks the completion of the spawned move task in the
determinized schedule (used for ordering statements). -/
inductive MotorAction
  | move (m : MotorObj) (pos : Rat)
  | syncMoveRelative (m : MotorObj) (delta : Rat)
  | spawnMove (mp : List (MotorKey × Rat))
  | waitReady
  | mainMoveTaskDone
deriving DecidableEq, Repr

/-- Association-list lookup (Python `d[k]` returning `some` when present). -/
def alookup {α β : Type} [DecidableEq α] : List (α × β) → α → Option β
  | [], _ => none
  | kv :: rest, a => if kv.1 = a then some kv.2 else alookup rest a

/-- Association-list deletion (Python `del d[k]`; keys are unique in a dict,
so removing every occurrence coincides with removing the one entry). -/
def adel {α β : Type} [DecidableEq α] : List (α × β) → α → List (α × β)
  | [], _ => []
  | kv :: rest, a => if kv.1 = a then adel rest a else kv :: adel rest a

/-- Association-list assignment (Python `d[k] = v`: replace in place when the
key exists, else append). -/
def aset {α β : Type} [DecidableEq α] : List (α × β) → α → β → List (α × β)
  | [], a, b => [(a, b)]
  | kv :: rest, a, b => if kv.1 = a then (a, b) :: rest else kv :: aset rest a b

/-- Class attribute `GenericDiffractometer.MOTORS_NAME`. -/
def MOTORS_NAME : List String :=
  ["phi", "focus", "phiz", "phiy", "zoom", "sampx", "sampy", "kappa",
   "kappa_phi", "beam_x", "beam_y"]

def HEAD_TYPE_MINIKAPPA : String := "MiniKappa"

def HEAD_TYPE_PLATE : String := "Plate"

def CENTRING_METHOD_MANUAL : String := "Manual 3-click"

def CENTRING_METHOD_AUTO : String := "Computer automatic"

def CENTRING_METHOD_MOVE_TO_BEAM : String := "Move to beam"

/-- Keys of the `self.centring_methods` dict built in `__init__`. -/
def centring_methods_keys : List String :=
  [CENTRING_METHOD_MANUAL, CENTRING_METHOD_AUTO, CENTRING_METHOD_MOVE_TO_BEAM]

/-- The mutable instance state of a `GenericDiffractometer` relevant to the
centring engine.  `user_clicked_event` models the `gevent.event.AsyncResult`
created in `init`: `none` means no value stored (a `get` would block), `some v`
means `set(v)` was called and a `get` returns `v` immediately.  `ready_event`
models the `gevent.event.Event` (`true` = set).  `now_str` / `now_time` model
`time.strftime(...)` / `time.time()` at the current instant. -/
structure DiffState where
  motor_hwobj_dict : List (String × Option MotorObj)
  used_motors_list : List String
  hw_motor_positions : List (MotorObj × Rat)
  beam_position : Rat × Rat
  zoom_centre : Rat × Rat
  pixels_per_mm_x : Rat
  pixels_per_mm_y : Rat
  head_type : String
  current_centring_method : Option String
  current_centring_procedure : Option ProcResult
  centring_status : CentringStatus
  current_motor_positions : List (String × Rat)
  user_clicked_event : Option (Rat × Rat)
  ready_event : Bool
  centring_time : Rat
  now_str : String
  now_time : Rat
deriving DecidableEq, Repr

/-- `in_plate_mode`: `self.head_type == GenericDiffractometer.HEAD_TYPE_PLATE`. -/
abbrev in_plate_mode (st : DiffState) : Prop :=
  st.head_type = HEAD_TYPE_PLATE

/-- `get_centring_status`: returns a deep copy of `self.centring_status`
(values are immutable here, so the copy is the value itself). -/
def get_centring_status (st : DiffState) : CentringStatus :=
  st.centring_status

/-- `image_clicked(x, y)`: stores the click in the `AsyncResult`
(`self.user_clicked_event.set((x, y))`).  The `xi`/`yi` parameters of the
source are unused there and omitted. -/
def image_clicked (st : DiffState) (x y : Rat) : DiffState :=
  { st with user_clicked_event := some (x, y) }

/-- `emit_centring_failed`: resets `centring_status` to `{"valid": False}`,
clears `current_centring_method` and `current_centring_procedure`, and emits
`centringFailed` with the method captured before clearing and the
already-cleared status snapshot. -/
def emit_centring_failed (st : DiffState) : DiffState × Event :=
  ({ st with centring_status := invalidStatus,
             current_centring_method := none,
             current_centring_procedure := none },
   Event.centringFailed st.current_centring_method invalidStatus)

/-- `emit_centring_started(method)`: records the method and emits the event. -/
def emit_centring_started (st : DiffState) (method : String) : DiffState × Event :=
  ({ st with current_centring_method := some method },
   Event.centringStarted method)

/-- `get_positions` (source also stores the result back into
`self.current_motor_positions`; the returned dict is what the claims are
about).  Note the source divides the x offset by `pixels_per_mm_y` and the
y offset by `pixels_per_mm_x`. -/
def get_positions (st : DiffState) : List (String × Rat) :=
  aset
    (aset st.current_motor_positions "beam_x"
      ((st.beam_position.1 - st.zoom_centre.1) / st.pixels_per_mm_y))
    "beam_y"
    ((st.beam_position.2 - st.zoom_centre.2) / st.pixels_per_mm_x)

/-- `getPosition()` of a motor hardware object (its current readback). -/
def getPosition (st : DiffState) (mo : MotorObj) : Rat :=
  (alookup st.hw_motor_positions mo).getD 0

/-- `convert_from_obj_to_name(motor_pos)`: builds a name-keyed dict from an
object-keyed one, filling missing motors from their current readback
(`except KeyError: if motor_obj: motors[motor_role] = motor_obj.getPosition()`;
a role whose hardware object is `None` is skipped because `motor_pos[None]`
raises and `None` is falsy).  `getObjectByRole` is modelled by the
`motor_hwobj_dict` built from it in `init`.  The same swapped
`pixels_per_mm` division as in `get_positions` is used for the two
pseudo-motors. -/
def convert_from_obj_to_name (st : DiffState) (motor_pos : List (MotorObj × Rat)) :
    List (String × Rat) :=
  let motors := st.used_motors_list.foldl
    (fun acc role =>
      match alookup st.motor_hwobj_dict role with
      | some (some mo) =>
          match alookup motor_pos mo with
          | some p => aset acc role p
          | none => aset acc role (getPosition st mo)
      | _ => acc)
    []
  aset
    (aset motors "beam_x"
      ((st.beam_position.1 - st.zoom_centre.1) / st.pixels_per_mm_y))
    "beam_y"
    ((st.beam_position.2 - st.zoom_centre.2) / st.pixels_per_mm_x)

/-- Result of a `move_motors` call: `error` is the escaped exception if any,
`final` the motor-position dict after its in-place mutation, `actions` the
motor commands issued before returning or before the exception. -/
structure MoveMotorsResult where
  error : Option String
  final : List (MotorKey × Rat)
  actions : List MotorAction
deriving DecidableEq, Repr

/-- The loop of `move_motors` over the key snapshot taken by
`motor_positions.keys()` (a list in Python 2, so later mutation of the dict
does not change the iteration).  Per iteration, in source order:
`position = motor_positions[motor]`; for a string key, look the role up in
`motor_hwobj_dict` (KeyError if absent), delete the string entry, skip if the
hardware object is `None`, else store the position under the object key and
issue the move; for an object key just issue the move.  After the loop,
`wait_device_ready(15)` is reached. -/
def move_motors_loop (hw : List (String × Option MotorObj)) :
    List MotorKey → List (MotorKey × Rat) → List MotorAction → MoveMotorsResult
  | [], mp, acts => ⟨none, mp, acts ++ [MotorAction.waitReady]⟩
  | k :: ks, mp, acts =>
    match alookup mp k with
    | none => ⟨some "KeyError", mp, acts⟩
    | some position =>
      match k with
      | MotorKey.name role =>
        match alookup hw role with
        | none => ⟨some "KeyError", mp, acts⟩
        | some none => move_motors_loop hw ks (adel mp (MotorKey.name role)) acts
        | some (some m) =>
            move_motors_loop hw ks
              (aset (adel mp (MotorKey.name role)) (MotorKey.obj m) position)
              (acts ++ [MotorAction.move m position])
      | MotorKey.obj m =>
          move_motors_loop hw ks mp (acts ++ [MotorAction.move m position])

/-- `move_motors(motor_positions)` of `GenericDiffractometer`. -/
def move_motors (hw : List (String × Option MotorObj)) (mp : List (MotorKey × Rat)) :
    MoveMotorsResult :=
  move_motors_loop hw (mp.map Prod.fst) mp []

/-- Lift an object-keyed motor-position dict (as produced by a centring
procedure) into the key type accepted by `move_motors`. -/
def objKeyMap (mp : List (MotorObj × Rat)) : List (MotorKey × Rat) :=
  mp.map (fun p => (MotorKey.obj p.1, p.2))

/-- `emit_centring_successful`: when a procedure is stored, re-reads its
result with `.get()` (which re-raises if the greenlet failed — the `error`
case), stamps `endTime`, stores the name-converted motors and the method,
marks the status valid, emits the event, then clears the session slots.
Without a stored procedure it only logs. -/
def emit_centring_successful (st : DiffState) : Except Unit (DiffState × List Event) :=
  match st.current_centring_procedure with
  | none => Except.ok (st, [])
  | some proc =>
    match proc with
    | ProcResult.value mp =>
      let status1 : CentringStatus :=
        { st.centring_status with
            endTime := some st.now_str,
            motors := some (convert_from_obj_to_name st mp),
            method := st.current_centring_method,
            valid := true }
      Except.ok
        ({ st with centring_status := status1,
                   current_centring_method := none,
                   current_centring_procedure := none },
         [Event.centringSuccessful st.current_centring_method status1])
    | _ => Except.error ()

/-- The unconditional tail of the success branch of `centring_done`
(source lines 513-516): `centring_time = time.time()`,
`emit_centring_successful()`, `emit_progress_message("")`,
`ready_event.set()`.  If `emit_centring_successful` raises, the exception
escapes the callback and nothing after it runs. -/
def centring_done_tail (st : DiffState) (evs : List Event) (acts : List MotorAction) :
    DiffState × List Event × List MotorAction × Bool :=
  let st1 := { st with centring_time := st.now_time }
  match emit_centring_successful st1 with
  | Except.ok (st2, evs2) =>
      ({ st2 with ready_event := true },
       evs ++ evs2 ++ [Event.progressMessage ""], acts, false)
  | Except.error _ => (st1, evs, acts, true)

/-- `centring_done(centring_procedure)`, the link callback of the spawned
centring procedure.  `result` is what `centring_procedure.get()` yields
(a `GreenletExit` value is re-raised by the source).  `moveRaises` models
`move_to_motors_positions` raising synchronously, `relRaises` models
`syncMoveRelative` raising.  The final `Bool` is `true` when an exception
escapes the callback.  Note: in the exception branch the source emits
`centringFailed` and returns — `ready_event` is never set there. -/
def centring_done (st : DiffState) (result : ProcResult) (moveRaises relRaises : Bool) :
    DiffState × List Event × List MotorAction × Bool :=
  match result with
  | ProcResult.greenletExit =>
      let fe := emit_centring_failed st
      (fe.1, [fe.2], [], false)
  | ProcResult.exn =>
      let fe := emit_centring_failed st
      (fe.1, [fe.2], [], false)
  | ProcResult.value mp =>
      let evs0 := [Event.progressMessage "Moving sample to centred position...",
                   Event.centringMoving]
      if moveRaises then
        let fe := emit_centring_failed st
        centring_done_tail fe.1 (evs0 ++ [fe.2]) []
      else
        let acts0 := [MotorAction.spawnMove (objKeyMap mp)]
        if st.head_type = HEAD_TYPE_PLATE then
          centring_done_tail st evs0 acts0
        else
          match alookup st.motor_hwobj_dict "phi" with
          | some (some phiM) =>
              if relRaises then
                (st, evs0, acts0 ++ [MotorAction.syncMoveRelative phiM (-180)], true)
              else
                centring_done_tail st evs0
                  (acts0 ++ [MotorAction.syncMoveRelative phiM (-180)])
          | _ => (st, evs0, acts0, true)

/-- Determinized cooperative (gevent) schedule of the motor commands caused
by the success branch of `centring_done`: `gevent.spawn` only enqueues the
`move_motors` greenlet, which first runs when the spawning greenlet yields —
inside the blocking `syncMoveRelative` call in non-plate mode, or after the
callback returns in plate mode.  The relative-move command is therefore
issued before any command of the main move, and `mainMoveTaskDone` (the
completion of the spawned task) comes last. -/
def centring_done_issue_trace (st : DiffState) (mp : List (MotorObj × Rat)) :
    List MotorAction :=
  let mainTask := (move_motors st.motor_hwobj_dict (objKeyMap mp)).actions ++
    [MotorAction.mainMoveTaskDone]
  if st.head_type = HEAD_TYPE_PLATE then mainTask
  else
    match alookup st.motor_hwobj_dict "phi" with
    | some (some phiM) => MotorAction.syncMoveRelative phiM (-180) :: mainTask
    | _ => mainTask

/-- `start_move_to_beam` in the base class: emits the progress message,
stamps `centring_time` and a valid `centring_status`, then calls
`get_centred_point_from_coord`, which raises `NotImplementedError` in
`GenericDiffractometer`; the bare `except` only logs, so the earlier state
changes persist and nothing further happens. -/
def start_move_to_beam (st : DiffState) : DiffState × List Event :=
  ({ st with centring_time := st.now_time,
             centring_status :=
               { valid := true, startTime := some st.now_str,
                 endTime := some st.now_str, angleLimit := none,
                 motors := none, method := none, accepted := none } },
   [Event.progressMessage "Move to beam..."])

/-- Dispatch of `centring_method(sample_info, wait_result=wait)` for the three
registered variants.  The manual and automatic starters spawn the procedure
greenlet (its eventual outcome is the `proc` parameter) and link
`centring_done`; neither raises synchronously.  The `wait_result` suspension
of `start_automatic_centring` blocks the caller and changes no state modelled
here. -/
def dispatch_centring_method (st : DiffState) (method : String) (proc : ProcResult) :
    DiffState × List Event :=
  if method = CENTRING_METHOD_MANUAL then
    ({ st with current_centring_procedure := some proc },
     [Event.progressMessage "Manual 3 click centring..."])
  else if method = CENTRING_METHOD_AUTO then
    ({ st with current_centring_procedure := some proc },
     [Event.progressMessage "Automatic centring..."])
  else if method = CENTRING_METHOD_MOVE_TO_BEAM then
    start_move_to_beam st
  else (st, [])

/-- `start_centring_method(method, sample_info, wait)`: returns immediately
(only logging) when `current_centring_method` is already set; otherwise
builds the fresh `centring_status` (with `startTime` and an `angleLimit` key
holding `None`), emits `centringStarted` via `emit_centring_started`, and
only then looks the method up in `centring_methods` — an unknown method hits
the `except KeyError` branch and `emit_centring_failed`. -/
def start_centring_method (st : DiffState) (method : String) (proc : ProcResult)
    (wait : Bool) : DiffState × List Event :=
  if st.current_centring_method.isSome then (st, [])
  else
    let st1 := { st with centring_status :=
      { valid := false, startTime := some st.now_str, endTime := none,
        angleLimit := some none, motors := none, method := none,
        accepted := none } }
    let se := emit_centring_started st1 method
    if method ∈ centring_methods_keys then
      let de := dispatch_centring_method se.1 method proc
      (de.1, se.2 :: de.2)
    else
      let fe := emit_centring_failed se.1
      (fe.1, [se.2, fe.2])

/-- `reject_centring`: kills a running procedure if any (the kill runs the
linked `centring_done` with a `GreenletExit`, emitting `centringFailed` and
clearing the session), resets the status to `{"valid": False}`, emits the
empty progress message and `centringAccepted` with `False` and the current
(invalid) snapshot. -/
def reject_centring (st : DiffState) : DiffState × List Event :=
  let killed :=
    match st.current_centring_procedure with
    | some _ =>
        let cd := centring_done st ProcResult.greenletExit false false
        (cd.1, cd.2.1)
    | none => (st, ([] : List Event))
  let st2 := { killed.1 with centring_status := invalidStatus }
  (st2, killed.2 ++ [Event.progressMessage "",
                     Event.centringAccepted false invalidStatus])

/-- `cancel_centring_method(reject)`.  With a running procedure the source
kills it (`kill()` blocks, so the linked `centring_done` runs with a
`GreenletExit` and emits `centringFailed`), then evaluates
`self.cancel_centring_methods[self.current_centring_method]`.  The attribute
`cancel_centring_methods` is never assigned anywhere in this repository, so
the access raises `AttributeError`, which the `except KeyError` clause does
not catch: the exception escapes to the caller (final `Bool` = `true`) and
neither `emit_progress_message("")` nor `reject_centring` runs.  Without a
running procedure the source emits `centringFailed`, the empty progress
message, and, when `reject` is set, performs `reject_centring`. -/
def cancel_centring_method (st : DiffState) (reject : Bool) :
    DiffState × List Event × Bool :=
  match st.current_centring_procedure with
  | some _ =>
      let cd := centring_done st ProcResult.greenletExit false false
      (cd.1, cd.2.1, true)
  | none =>
      let fe := emit_centring_failed st
      let evs := [fe.2, Event.progressMessage ""]
      if reject then
        let rj := reject_centring fe.1
        (rj.1, evs ++ rj.2, false)
      else (fe.1, evs, false)

/-- `true` iff the key is a role-name string present in the configured motor
dict (whatever its hardware object is). -/
def isConfiguredName (hw : List (String × Option MotorObj)) : MotorKey → Bool
  | MotorKey.name s => (alookup hw s).isSome
  | MotorKey.obj _ => false

/-- The net effect of `move_motors` on its argument dict when every key is a
configured role name: entries whose hardware object is `None` are dropped,
the others are re-keyed by the motor object. -/
def pyConvertEntry (hw : List (String × Option MotorObj)) (kv : MotorKey × Rat) :
    Option (MotorKey × Rat) :=
  match kv.1 with
  | MotorKey.name s =>
      match alookup hw s with
      | some (some mo) => some (MotorKey.obj mo, kv.2)
      | _ => none
  | MotorKey.obj _ => some kv

def pyConvert (hw : List (String × Option MotorObj)) (mp : List (MotorKey × Rat)) :
    List (MotorKey × Rat) :=
  mp.filterMap (pyConvertEntry hw)

/-- The motor objects actually resolved from the name keys of a map. -/
def objsOf (hw : List (String × Option MotorObj)) (mp : List (MotorKey × Rat)) :
    List MotorObj :=
  mp.filterMap (fun kv =>
    match kv.1 with
    | MotorKey.name s =>
        match alookup hw s with
        | some (some mo) => some mo
        | _ => none
    | MotorKey.obj _ => none)

/-- Concrete motor objects and a concrete configuration used by witnesses and
counterexamples: `phi` and `zoom` are installed, `sampx` is configured but
its hardware object is `None`. -/
def mPhi : MotorObj := ⟨"phi"⟩

def mZoom : MotorObj := ⟨"zoom"⟩

def hwStd : List (String × Option MotorObj) :=
  [("phi", some mPhi), ("zoom", some mZoom), ("sampx", none)]

def baseState : DiffState :=
  { motor_hwobj_dict := hwStd,
    used_motors_list := ["phi", "zoom", "sampx"],
    hw_motor_positions := [(mPhi, 10), (mZoom, 20)],
    beam_position := (100, 50),
    zoom_centre := (100, 50),
    pixels_per_mm_x := 2,
    pixels_per_mm_y := 2,
    head_type := HEAD_TYPE_MINIKAPPA,
    current_centring_method := none,
    current_centring_procedure := none,
    centring_status := invalidStatus,
    current_motor_positions := [],
    user_clicked_event := none,
    ready_event := false,
    centring_time := 0,
    now_str := "2016-01-01 00:00:00",
    now_time := 1 }

/-- A state with an active manual centring session. -/
def c1st : DiffState :=
  { baseState with current_centring_method := some CENTRING_METHOD_MANUAL }

/-- An active manual session whose spawned procedure will fail. -/
def c2st : DiffState :=
  { c1st with current_centring_procedure := some ProcResult.exn }

/-- Calibration with distinct per-axis scales. -/
def c3st : DiffState :=
  { baseState with beam_position := (102, 7), zoom_centre := (100, 5),
                   pixels_per_mm_x := 1, pixels_per_mm_y := 2 }

def mp9 : List (MotorKey × Rat) :=
  [(MotorKey.name "phi", 1), (MotorKey.name "sampx", 2), (MotorKey.name "zoom", 3)]

def mpUnknown : List (MotorKey × Rat) :=
  [(MotorKey.name "phi", 1), (MotorKey.name "gamma", 2), (MotorKey.name "zoom", 3)]

def c7mp : List (MotorObj × Rat) := [(mZoom, 5)]

def c7plateSt : DiffState := { baseState with head_type := HEAD_TYPE_PLATE }

/-! ### Association-list lemmas -/

theorem alookup_aset_self {α β : Type} [DecidableEq α] (m : List (α × β)) (k : α) (v : β) :
    alookup (aset m k v) k = some v := by
  induction m with
  | nil => simp [aset, alookup]
  | cons kv rest ih =>
    by_cases h : kv.1 = k
    · simp [aset, h, alookup]
    · simp [aset, h, alookup, ih]

theorem alookup_aset_ne {α β : Type} [DecidableEq α] (m : List (α × β)) (k a : α) (v : β)
    (h : a ≠ k) : alookup (aset m k v) a = alookup m a := by
  have hka : ¬ k = a := fun he => h he.symm
  induction m with
  | nil => simp [aset, alookup, hka]
  | cons kv rest ih =>
    by_cases hk : kv.1 = k
    · have hkva : ¬ kv.1 = a := by rw [hk]; exact hka
      simp [aset, alookup, hk, hka, hkva, h]
    · by_cases ha : kv.1 = a
      · simp [aset, alookup, hk, ha, h, hka]
      · simp [aset, alookup, hk, ha, h, hka, ih]

theorem alookup_adel_ne {α β : Type} [DecidableEq α] (m : List (α × β)) (k a : α)
    (h : a ≠ k) : alookup (adel m k) a = alookup m a := by
  have hka : ¬ k = a := fun he => h he.symm
  induction m with
  | nil => rfl
  | cons kv rest ih =>
    by_cases hk : kv.1 = k
    · have hkva : ¬ kv.1 = a := by rw [hk]; exact hka
      simp [adel, alookup, hk, hkva, hka, h, ih]
    · by_cases ha : kv.1 = a
      · simp [adel, alookup, hk, ha, hka, h]
      · simp [adel, alookup, hk, ha, hka, h, ih]

theorem alookup_isSome_of_mem {α β : Type} [DecidableEq α] (m : List (α × β)) (kv : α × β)
    (h : kv ∈ m) : (alookup m kv.1).isSome := by
  induction m with
  | nil => cases h
  | cons hd rest ih =>
    by_cases he : hd.1 = kv.1
    · simp [alookup, he]
    · rcases List.mem_cons.mp h with h1 | h2
      · exact absurd (h1 ▸ rfl) he
      · simp [alookup, he, ih h2]

theorem adel_append {α β : Type} [DecidableEq α] (l1 l2 : List (α × β)) (k : α) :
    adel (l1 ++ l2) k = adel l1 k ++ adel l2 k := by
  induction l1 with
  | nil => rfl
  | cons kv rest ih =>
    by_cases hk : kv.1 = k
    · simp [adel, hk, ih]
    · simp [adel, hk, ih]

theorem adel_of_not_mem {α β : Type} [DecidableEq α] (l : List (α × β)) (k : α)
    (h : k ∉ l.map Prod.fst) : adel l k = l := by
  induction l with
  | nil => rfl
  | cons kv rest ih =>
    simp only [List.map_cons, List.mem_cons] at h
    push_neg at h
    have hk : ¬ kv.1 = k := fun he => h.1 he.symm
    simp [adel, hk, ih h.2]

theorem aset_of_not_mem {α β : Type} [DecidableEq α] (l : List (α × β)) (k : α) (v : β)
    (h : k ∉ l.map Prod.fst) : aset l k v = l ++ [(k, v)] := by
  induction l with
  | nil => rfl
  | cons kv rest ih =>
    simp only [List.map_cons, List.mem_cons] at h
    push_neg at h
    have hk : ¬ kv.1 = k := fun he => h.1 he.symm
    simp [aset, hk, ih h.2]

theorem isConfiguredName_shape {hw : List (String × Option MotorObj)} {k : MotorKey}
    (h : isConfiguredName hw k = true) : ∃ s, k = MotorKey.name s := by
  cases k with
  | name s => exact ⟨s, rfl⟩
  | obj m => simp [isConfiguredName] at h

/-! ### Claims C1, C3 (partly), C5, C6, C8, C10 and the simple counterexamples -/

/-- C1: a `Start` issued while `current_centring_method` is non-None returns
without dispatching a procedure and leaves the whole state (in particular
`centring_status`, `current_centring_method`, `current_centring_procedure`
and the recorded start time) unchanged, emitting nothing. -/
theorem C1_thm (st : DiffState) (m : String) (h : st.current_centring_method = some m)
    (method : String) (proc : ProcResult) (wait : Bool) :
    start_centring_method st method proc wait = (st, []) := by
  simp [start_centring_method, h]

theorem C1_witness :
    start_centring_method c1st CENTRING_METHOD_AUTO ProcResult.exn false = (c1st, []) :=
  C1_thm c1st CENTRING_METHOD_MANUAL rfl CENTRING_METHOD_AUTO ProcResult.exn false

/-- C10: `emit_centring_failed` resets the engine to the no-active-session
state in the same step: the status becomes exactly `{"valid": False}`, both
session slots become `None`, and the emitted event carries the
already-cleared snapshot (together with the method captured before
clearing). -/
theorem C10_thm (st : DiffState) :
    (emit_centring_failed st).1.centring_status = invalidStatus ∧
    (emit_centring_failed st).1.current_centring_method = none ∧
    (emit_centring_failed st).1.current_centring_procedure = none ∧
    (emit_centring_failed st).2 =
      Event.centringFailed st.current_centring_method
        (get_centring_status (emit_centring_failed st).1) := by
  simp [emit_centring_failed, get_centring_status]

/-- C8 counterexample: `image_clicked` with nothing awaiting input is not a
no-op — it stores the click in the `AsyncResult`, so the state differs from
the state without the call. -/
theorem C8_counterexample : image_clicked baseState 1 2 ≠ baseState := by decide

/-- C8 amended: `image_clicked` leaves the centring status, the session slots
and the readiness flag unchanged, but stores the click in
`user_clicked_event`, so a procedure that starts awaiting input afterwards
receives the stale click immediately instead of blocking. -/
theorem C8_amended (st : DiffState) (x y : Rat) :
    get_centring_status (image_clicked st x y) = get_centring_status st ∧
    (image_clicked st x y).current_centring_method = st.current_centring_method ∧
    (image_clicked st x y).current_centring_procedure = st.current_centring_procedure ∧
    (image_clicked st x y).ready_event = st.ready_event ∧
    (image_clicked st x y).user_clicked_event = some (x, y) := by
  simp [image_clicked, get_centring_status]

/-- C6 counterexample: a `Start` with an unregistered method does emit
`centringStarted` (the source emits it before looking the method up), so the
claim that no "centring started" event is emitted fails. -/
theorem C6_counterexample :
    Event.centringStarted "bogus" ∈
      (start_centring_method baseState "bogus" ProcResult.exn false).2 := by decide

/-- C6 amended: a `Start` with an unregistered method first records session
state (fresh status with `startTime`, method slot set) and emits
`centringStarted`, then hits the unknown-method handler and emits
`centringFailed`, which clears the session again: the final state has no
active session and the events are exactly `centringStarted` then
`centringFailed`. -/
theorem C6_amended (st : DiffState) (method : String) (proc : ProcResult) (wait : Bool)
    (h1 : st.current_centring_method = none) (h2 : method ∉ centring_methods_keys) :
    start_centring_method st method proc wait =
      ({ st with centring_status := invalidStatus,
                 current_centring_method := none,
                 current_centring_procedure := none },
       [Event.centringStarted method,
        Event.centringFailed (some method) invalidStatus]) := by
  simp [start_centring_method, h1, h2, emit_centring_started, emit_centring_failed]

theorem C6_witness :
    start_centring_method baseState "bogus" ProcResult.exn false =
      ({ baseState with centring_status := invalidStatus,
                        current_centring_method := none,
                        current_centring_procedure := none },
       [Event.centringStarted "bogus",
        Event.centringFailed (some "bogus") invalidStatus]) :=
  C6_amended baseState "bogus" ProcResult.exn false rfl (by decide)

/-- C2 counterexample: when the centring procedure task fails with an
exception, `centring_done` emits `centringFailed` but does not set
`ready_event` (the `ready_event.set()` of the source is in the success
branch only), so the claim that every failure path sets the readiness
signal fails. -/
theorem C2_counterexample :
    Event.centringFailed (some CENTRING_METHOD_MANUAL) invalidStatus ∈
      (centring_done c2st ProcResult.exn false false).2.1 ∧
    (centring_done c2st ProcResult.exn false false).1.ready_event = false := by decide

/-- C5: the code contradicts the claim.  `cancel_centring_method(reject=True)`
with a running procedure kills it (which emits `centringFailed` through the
linked `centring_done`) but then reads the never-assigned attribute
`cancel_centring_methods`: the resulting `AttributeError` escapes to the
caller and the rejection event is never emitted. -/
theorem C5_code_eval :
    (cancel_centring_method c2st true).2.2 = true ∧
    (cancel_centring_method c2st true).2.1 =
      [Event.centringFailed (some CENTRING_METHOD_MANUAL) invalidStatus] := by decide

/-- C3 counterexample: with `pixels_per_mm_x = 1` and `pixels_per_mm_y = 2`
(the other calibration values as in `c3st`), the `beam_x` value computed by
`get_positions` is not `(bx - zx) / pixels_per_mm_x`: the source divides the
x offset by `pixels_per_mm_y`. -/
theorem C3_counterexample :
    alookup (get_positions c3st) "beam_x" ≠
      some ((c3st.beam_position.1 - c3st.zoom_centre.1) / c3st.pixels_per_mm_x) := by
  have hxy : ("beam_x" : String) ≠ "beam_y" := by decide
  rw [get_positions, alookup_aset_ne _ _ _ _ hxy, alookup_aset_self]
  simp only [c3st, baseState]
  norm_num

/-- C3 amended: the derived pseudo-motor values satisfy
`beam_x = (bx - zx) / pixels_per_mm_y` and
`beam_y = (by - zy) / pixels_per_mm_x` (the per-axis scales are swapped
relative to the claim), both values are always present in the dicts produced
by `get_positions` and `convert_from_obj_to_name`, and the concrete scenario
`beamPos = (100, 50)`, `pixelsPerMm = (2, 2)`, `zoomCentre = (100, 50)`
still yields `beam_x = 0` and `beam_y = 0`. -/
theorem C3_amended (st : DiffState) (mp : List (MotorObj × Rat)) :
    alookup (get_positions st) "beam_x" =
      some ((st.beam_position.1 - st.zoom_centre.1) / st.pixels_per_mm_y) ∧
    alookup (get_positions st) "beam_y" =
      some ((st.beam_position.2 - st.zoom_centre.2) / st.pixels_per_mm_x) ∧
    alookup (convert_from_obj_to_name st mp) "beam_x" =
      some ((st.beam_position.1 - st.zoom_centre.1) / st.pixels_per_mm_y) ∧
    alookup (convert_from_obj_to_name st mp) "beam_y" =
      some ((st.beam_position.2 - st.zoom_centre.2) / st.pixels_per_mm_x) ∧
    alookup (get_positions baseState) "beam_x" = some 0 ∧
    alookup (get_positions baseState) "beam_y" = some 0 := by
  have hxy : ("beam_x" : String) ≠ "beam_y" := by decide
  have g1 : ∀ s : DiffState, alookup (get_positions s) "beam_x" =
      some ((s.beam_position.1 - s.zoom_centre.1) / s.pixels_per_mm_y) := by
    intro s
    rw [get_positions, alookup_aset_ne _ _ _ _ hxy, alookup_aset_self]
  have g2 : ∀ s : DiffState, alookup (get_positions s) "beam_y" =
      some ((s.beam_position.2 - s.zoom_centre.2) / s.pixels_per_mm_x) := by
    intro s
    rw [get_positions, alookup_aset_self]
  refine ⟨g1 st, g2 st, ?_, ?_, ?_, ?_⟩
  · simp only [convert_from_obj_to_name]
    rw [alookup_aset_ne _ _ _ _ hxy, alookup_aset_self]
  · simp only [convert_from_obj_to_name]
    rw [alookup_aset_self]
  · rw [g1 baseState]
    simp only [baseState]
    norm_num
  · rw [g2 baseState]
    simp only [baseState]
    norm_num

/-- C4 counterexample: a motor-position map with one name absent from the
configured motor dict (`"gamma"`) among valid entries makes `move_motors`
raise `KeyError`; the entries after the unknown one are not moved and the
device-readiness wait is never reached. -/
theorem C4_counterexample :
    (move_motors hwStd mpUnknown).error = some "KeyError" ∧
    MotorAction.move mZoom 3 ∉ (move_motors hwStd mpUnknown).actions ∧
    MotorAction.waitReady ∉ (move_motors hwStd mpUnknown).actions := by decide

/-- C7 counterexample: in the issue trace of the success branch of
`centring_done` (non-plate mode), the φ −180° relative move is issued at an
index with no `mainMoveTaskDone` before it — so it is not issued "only after
the main move has completed". -/
theorem C7_counterexample :
    ¬ (∀ i < (centring_done_issue_trace baseState c7mp).length,
        (centring_done_issue_trace baseState c7mp)[i]? =
          some (MotorAction.syncMoveRelative mPhi (-180)) →
        MotorAction.mainMoveTaskDone ∈ (centring_done_issue_trace baseState c7mp).take i) := by
  decide

/-! ### Claim C2: failure paths of centring_done -/

/-- C2 amended: a failure of the procedure task makes `centring_done` emit
`centringFailed` without touching `ready_event`; a synchronous failure of the
move call emits `centringFailed` and does set `ready_event`; a failure of the
extra φ relative move lets the exception escape the callback, emitting no
further event and leaving `ready_event` unchanged.  Only the middle path
releases a waiter. -/
theorem C2_amended (st : DiffState) (mp : List (MotorObj × Rat)) (phiM : MotorObj)
    (hplate : ¬ in_plate_mode st)
    (hphi : alookup st.motor_hwobj_dict "phi" = some (some phiM)) :
    ((centring_done st ProcResult.exn false false).2.1 =
        [Event.centringFailed st.current_centring_method invalidStatus] ∧
     (centring_done st ProcResult.exn false false).1.ready_event = st.ready_event) ∧
    ((centring_done st (ProcResult.value mp) true false).2.1 =
        [Event.progressMessage "Moving sample to centred position...",
         Event.centringMoving,
         Event.centringFailed st.current_centring_method invalidStatus,
         Event.progressMessage ""] ∧
     (centring_done st (ProcResult.value mp) true false).1.ready_event = true) ∧
    ((centring_done st (ProcResult.value mp) false true).2.1 =
        [Event.progressMessage "Moving sample to centred position...",
         Event.centringMoving] ∧
     (centring_done st (ProcResult.value mp) false true).1.ready_event = st.ready_event ∧
     (centring_done st (ProcResult.value mp) false true).2.2.2 = true) := by
  refine ⟨⟨?_, ?_⟩, ⟨?_, ?_⟩, ⟨?_, ?_, ?_⟩⟩ <;>
    simp [centring_done, centring_done_tail, emit_centring_failed,
          emit_centring_successful, hphi, hplate]

theorem C2_witness :
    ((centring_done c2st ProcResult.exn false false).2.1 =
        [Event.centringFailed c2st.current_centring_method invalidStatus] ∧
     (centring_done c2st ProcResult.exn false false).1.ready_event = c2st.ready_event) ∧
    ((centring_done c2st (ProcResult.value c7mp) true false).2.1 =
        [Event.progressMessage "Moving sample to centred position...",
         Event.centringMoving,
         Event.centringFailed c2st.current_centring_method invalidStatus,
         Event.progressMessage ""] ∧
     (centring_done c2st (ProcResult.value c7mp) true false).1.ready_event = true) ∧
    ((centring_done c2st (ProcResult.value c7mp) false true).2.1 =
        [Event.progressMessage "Moving sample to centred position...",
         Event.centringMoving] ∧
     (centring_done c2st (ProcResult.value c7mp) false true).1.ready_event =
       c2st.ready_event ∧
     (centring_done c2st (ProcResult.value c7mp) false true).2.2.2 = true) :=
  C2_amended c2st c7mp mPhi (by decide) (by decide)

/-! ### Claim C7: ordering of the extra relative move -/

theorem move_motors_loop_actions_mem (hw : List (String × Option MotorObj)) :
    ∀ (ks : List MotorKey) (mp : List (MotorKey × Rat)) (acts : List MotorAction)
      (a : MotorAction), a ∈ (move_motors_loop hw ks mp acts).actions →
      a ∈ acts ∨ (∃ m p, a = MotorAction.move m p) ∨ a = MotorAction.waitReady := by
  intro ks
  induction ks with
  | nil =>
    intro mp acts a ha
    simp only [move_motors_loop] at ha
    rcases List.mem_append.mp ha with h1 | h2
    · exact Or.inl h1
    · simp only [List.mem_singleton] at h2
      exact Or.inr (Or.inr h2)
  | cons k ks ih =>
    intro mp acts a ha
    simp only [move_motors_loop] at ha
    split at ha
    · exact Or.inl ha
    · split at ha
      · split at ha
        · exact Or.inl ha
        · exact ih _ _ _ ha
        · rcases ih _ _ _ ha with h1 | h2 | h3
          · rcases List.mem_append.mp h1 with hl | hr
            · exact Or.inl hl
            · simp only [List.mem_singleton] at hr
              exact Or.inr (Or.inl ⟨_, _, hr⟩)
          · exact Or.inr (Or.inl h2)
          · exact Or.inr (Or.inr h3)
      · rcases ih _ _ _ ha with h1 | h2 | h3
        · rcases List.mem_append.mp h1 with hl | hr
          · exact Or.inl hl
          · simp only [List.mem_singleton] at hr
            exact Or.inr (Or.inl ⟨_, _, hr⟩)
        · exact Or.inr (Or.inl h2)
        · exact Or.inr (Or.inr h3)

/-- C7 amended: in non-plate mode the φ −180° relative move is issued
immediately, before any command of the spawned main move (and hence before
its completion); in plate mode it is never issued. -/
theorem C7_amended (st : DiffState) (mp : List (MotorObj × Rat)) (phiM : MotorObj)
    (hphi : alookup st.motor_hwobj_dict "phi" = some (some phiM)) :
    (¬ in_plate_mode st →
      centring_done_issue_trace st mp =
        MotorAction.syncMoveRelative phiM (-180) ::
          ((move_motors st.motor_hwobj_dict (objKeyMap mp)).actions ++
           [MotorAction.mainMoveTaskDone])) ∧
    (in_plate_mode st →
      MotorAction.syncMoveRelative phiM (-180) ∉ centring_done_issue_trace st mp) := by
  constructor
  · intro hpl
    simp only [centring_done_issue_trace]
    rw [if_neg hpl, hphi]
  · intro hpl
    simp only [centring_done_issue_trace]
    rw [if_pos hpl]
    intro hmem
    rcases List.mem_append.mp hmem with h1 | h2
    · simp only [move_motors] at h1
      rcases move_motors_loop_actions_mem st.motor_hwobj_dict _ _ _ _ h1 with h | h | h
      · simp at h
      · obtain ⟨m, p, he⟩ := h
        cases he
      · cases h
    · simp at h2

theorem C7_witness :
    ¬ in_plate_mode baseState ∧
    centring_done_issue_trace baseState c7mp =
      MotorAction.syncMoveRelative mPhi (-180) ::
        ((move_motors baseState.motor_hwobj_dict (objKeyMap c7mp)).actions ++
         [MotorAction.mainMoveTaskDone]) :=
  ⟨by decide, (C7_amended baseState c7mp mPhi (by decide)).1 (by decide)⟩

/-! ### Claim C4: move_motors completes when every name is configured -/

theorem move_motors_loop_total (hw : List (String × Option MotorObj)) :
    ∀ (ks : List MotorKey) (mp : List (MotorKey × Rat)) (acts : List MotorAction),
      (∀ k ∈ ks, isConfiguredName hw k = true ∧ (alookup mp k).isSome) →
      ks.Nodup →
      (move_motors_loop hw ks mp acts).error = none ∧
      MotorAction.waitReady ∈ (move_motors_loop hw ks mp acts).actions := by
  intro ks
  induction ks with
  | nil =>
    intro mp acts _ _
    exact ⟨rfl, by simp [move_motors_loop]⟩
  | cons k ks ih =>
    intro mp acts h hnd
    obtain ⟨hconf, hsome⟩ := h k (List.mem_cons_self k ks)
    obtain ⟨s, rfl⟩ := isConfiguredName_shape hconf
    obtain ⟨p, hp⟩ := Option.isSome_iff_exists.mp hsome
    obtain ⟨mo, hmo⟩ := Option.isSome_iff_exists.mp
      (by simpa [isConfiguredName] using hconf)
    have hnotmem : MotorKey.name s ∉ ks := (List.nodup_cons.mp hnd).1
    have hnd' : ks.Nodup := (List.nodup_cons.mp hnd).2
    cases mo with
    | none =>
      have h' : ∀ k ∈ ks, isConfiguredName hw k = true ∧
          (alookup (adel mp (MotorKey.name s)) k).isSome := by
        intro k hk
        have hne : k ≠ MotorKey.name s := fun he => hnotmem (he ▸ hk)
        rw [alookup_adel_ne mp (MotorKey.name s) k hne]
        exact h k (List.mem_cons_of_mem _ hk)
      simpa [move_motors_loop, hp, hmo] using ih _ acts h' hnd'
    | some m =>
      have h' : ∀ k ∈ ks, isConfiguredName hw k = true ∧
          (alookup (aset (adel mp (MotorKey.name s)) (MotorKey.obj m) p) k).isSome := by
        intro k hk
        obtain ⟨hc2, hs2⟩ := h k (List.mem_cons_of_mem _ hk)
        obtain ⟨s2, rfl⟩ := isConfiguredName_shape hc2
        have hne : MotorKey.name s2 ≠ MotorKey.name s := fun he => hnotmem (he ▸ hk)
        have hneobj : MotorKey.name s2 ≠ MotorKey.obj m := by simp
        rw [alookup_aset_ne _ (MotorKey.obj m) (MotorKey.name s2) p hneobj,
            alookup_adel_ne mp (MotorKey.name s) (MotorKey.name s2) hne]
        exact ⟨hc2, hs2⟩
      simpa [move_motors_loop, hp, hmo]
        using ih _ (acts ++ [MotorAction.move m p]) h' hnd'

/-- C4 amended: an entry whose name is not a key of the configured motor dict
makes `move_motors` raise `KeyError` (see the counterexample); entries whose
hardware object is `None` are skipped without error; and when every key of
the map is a configured role name, `move_motors` raises nothing and reaches
the device-readiness wait. -/
theorem C4_amended (hw : List (String × Option MotorObj)) (mp : List (MotorKey × Rat))
    (h1 : ∀ kv ∈ mp, isConfiguredName hw kv.1 = true)
    (h2 : (mp.map Prod.fst).Nodup) :
    (move_motors hw mp).error = none ∧
    MotorAction.waitReady ∈ (move_motors hw mp).actions := by
  have hks : ∀ k ∈ mp.map Prod.fst,
      isConfiguredName hw k = true ∧ (alookup mp k).isSome := by
    intro k hk
    obtain ⟨kv, hkv, rfl⟩ := List.mem_map.mp hk
    exact ⟨h1 kv hkv, alookup_isSome_of_mem mp kv hkv⟩
  simpa [move_motors] using move_motors_loop_total hw (mp.map Prod.fst) mp [] hks h2

theorem C4_witness :
    (move_motors hwStd mp9).error = none ∧
    MotorAction.waitReady ∈ (move_motors hwStd mp9).actions :=
  C4_amended hwStd mp9 (by decide) (by decide)

/-! ### Claim C9: in-place mutation of the caller's map by move_motors -/

theorem pyConvert_keys (hw : List (String × Option MotorObj)) (mp : List (MotorKey × Rat))
    (kv : MotorKey × Rat) (h : kv ∈ pyConvert hw mp) : ∃ mo, kv.1 = MotorKey.obj mo := by
  obtain ⟨kv0, hkv0, hconv⟩ := List.mem_filterMap.mp h
  obtain ⟨k0, p0⟩ := kv0
  cases k0 with
  | name s =>
    simp only [pyConvertEntry] at hconv
    cases halk : alookup hw s with
    | none =>
      rw [halk] at hconv
      simp at hconv
    | some o =>
      cases o with
      | none =>
        rw [halk] at hconv
        simp at hconv
      | some mo =>
        rw [halk] at hconv
        simp only [Option.some.injEq] at hconv
        subst hconv
        exact ⟨mo, rfl⟩
  | obj m =>
    simp only [pyConvertEntry, Option.some.injEq] at hconv
    subst hconv
    exact ⟨m, rfl⟩

theorem move_motors_loop_final (hw : List (String × Option MotorObj)) :
    ∀ (rest conv : List (MotorKey × Rat)) (acts : List MotorAction),
      (∀ kv ∈ rest, isConfiguredName hw kv.1 = true) →
      (rest.map Prod.fst).Nodup →
      (∀ kv ∈ conv, ∃ mo, kv.1 = MotorKey.obj mo) →
      (objsOf hw rest).Nodup →
      (∀ mo ∈ objsOf hw rest, MotorKey.obj mo ∉ conv.map Prod.fst) →
      (move_motors_loop hw (rest.map Prod.fst) (rest ++ conv) acts).error = none ∧
      (move_motors_loop hw (rest.map Prod.fst) (rest ++ conv) acts).final =
        conv ++ pyConvert hw rest := by
  intro rest
  induction rest with
  | nil =>
    intro conv acts _ _ _ _ _
    exact ⟨rfl, by simp [move_motors_loop, pyConvert]⟩
  | cons kv rest ih =>
    intro conv acts h1 h2 h3 h4 h5
    obtain ⟨k1, p⟩ := kv
    obtain ⟨s, hs⟩ := isConfiguredName_shape (h1 (k1, p) (List.mem_cons_self _ _))
    subst hs
    have hconf : (alookup hw s).isSome := by
      simpa [isConfiguredName] using h1 (MotorKey.name s, p) (List.mem_cons_self _ _)
    obtain ⟨mo, hmo⟩ := Option.isSome_iff_exists.mp hconf
    rw [List.map_cons] at h2
    have hnotrest : MotorKey.name s ∉ rest.map Prod.fst := (List.nodup_cons.mp h2).1
    have h2' : (rest.map Prod.fst).Nodup := (List.nodup_cons.mp h2).2
    have hnotconv : MotorKey.name s ∉ conv.map Prod.fst := by
      intro hmem
      obtain ⟨kv2, hkv2, hfst⟩ := List.mem_map.mp hmem
      obtain ⟨mo2, hk2⟩ := h3 kv2 hkv2
      rw [hk2] at hfst
      exact MotorKey.noConfusion hfst
    have hheadlookup :
        alookup (((MotorKey.name s, p) :: rest) ++ conv) (MotorKey.name s) = some p := by
      simp [alookup]
    have hdel : adel (((MotorKey.name s, p) :: rest) ++ conv) (MotorKey.name s) =
        rest ++ conv := by
      rw [List.cons_append]
      simp only [adel]
      rw [adel_append, adel_of_not_mem _ _ hnotrest, adel_of_not_mem _ _ hnotconv]
      simp
    have h1' : ∀ kv ∈ rest, isConfiguredName hw kv.1 = true :=
      fun kv hk => h1 kv (List.mem_cons_of_mem _ hk)
    cases mo with
    | none =>
      have hobjs : objsOf hw ((MotorKey.name s, p) :: rest) = objsOf hw rest := by
        simp [objsOf, hmo]
      rw [hobjs] at h4 h5
      have hpy : pyConvert hw ((MotorKey.name s, p) :: rest) = pyConvert hw rest := by
        simp [pyConvert, pyConvertEntry, hmo]
      have hstep : move_motors_loop hw (((MotorKey.name s, p) :: rest).map Prod.fst)
          (((MotorKey.name s, p) :: rest) ++ conv) acts =
          move_motors_loop hw (rest.map Prod.fst) (rest ++ conv) acts := by
        rw [List.map_cons]
        simp only [move_motors_loop, hheadlookup, hmo, hdel]
      rw [hstep, hpy]
      exact ih conv acts h1' h2' h3 h4 h5
    | some m =>
      have hobjs : objsOf hw ((MotorKey.name s, p) :: rest) = m :: objsOf hw rest := by
        simp [objsOf, hmo]
      rw [hobjs] at h4 h5
      have hmnotrest : m ∉ objsOf hw rest := (List.nodup_cons.mp h4).1
      have h4' : (objsOf hw rest).Nodup := (List.nodup_cons.mp h4).2
      have hmnotconv : MotorKey.obj m ∉ conv.map Prod.fst :=
        h5 m (List.mem_cons_self _ _)
      have hobjnotrest : MotorKey.obj m ∉ rest.map Prod.fst := by
        intro hmem
        obtain ⟨kv2, hkv2, hfst⟩ := List.mem_map.mp hmem
        obtain ⟨s2, hk2⟩ := isConfiguredName_shape (h1 kv2 (List.mem_cons_of_mem _ hkv2))
        rw [hk2] at hfst
        exact MotorKey.noConfusion hfst
      have haset : aset (rest ++ conv) (MotorKey.obj m) p =
          rest ++ (conv ++ [(MotorKey.obj m, p)]) := by
        rw [aset_of_not_mem, ← List.append_assoc]
        rw [List.map_append]
        intro hmem
        rcases List.mem_append.mp hmem with hc | hs2
        · exact hobjnotrest hc
        · exact hmnotconv hs2
      have hstep : move_motors_loop hw (((MotorKey.name s, p) :: rest).map Prod.fst)
          (((MotorKey.name s, p) :: rest) ++ conv) acts =
          move_motors_loop hw (rest.map Prod.fst)
            (rest ++ (conv ++ [(MotorKey.obj m, p)]))
            (acts ++ [MotorAction.move m p]) := by
        rw [List.map_cons]
        simp only [move_motors_loop, hheadlookup, hmo, hdel, haset]
      have h3' : ∀ kv ∈ conv ++ [(MotorKey.obj m, p)], ∃ mo, kv.1 = MotorKey.obj mo := by
        intro kv hk
        rcases List.mem_append.mp hk with hkc | hks
        · exact h3 kv hkc
        · simp only [List.mem_singleton] at hks
          rw [hks]
          exact ⟨m, rfl⟩
      have h5' : ∀ mo ∈ objsOf hw rest,
          MotorKey.obj mo ∉ (conv ++ [(MotorKey.obj m, p)]).map Prod.fst := by
        intro mo2 hmo2 hmem
        rw [List.map_append] at hmem
        rcases List.mem_append.mp hmem with hc | hs2
        · exact h5 mo2 (List.mem_cons_of_mem _ hmo2) hc
        · simp only [List.map_cons, List.map_nil, List.mem_singleton,
            MotorKey.obj.injEq] at hs2
          rw [hs2] at hmo2
          exact hmnotrest hmo2
      have hpy : pyConvert hw ((MotorKey.name s, p) :: rest) =
          (MotorKey.obj m, p) :: pyConvert hw rest := by
        simp [pyConvert, pyConvertEntry, hmo]
      have key := ih (conv ++ [(MotorKey.obj m, p)]) (acts ++ [MotorAction.move m p])
        h1' h2' h3' h4' h5'
      constructor
      · rw [hstep]
        exact key.1
      · rw [hstep, hpy, key.2, List.append_assoc]
        simp

/-- C9: when `move_motors` is given a map keyed by configured motor names, it
mutates the map in place: every string key is removed, each name whose motor
is installed reappears as the motor-object key with the same target (in
order), names whose hardware object is `None` are dropped, and the resulting
map differs from the original (it has no string key left while the original
had only string keys). -/
theorem C9_thm (hw : List (String × Option MotorObj)) (mp : List (MotorKey × Rat))
    (h1 : ∀ kv ∈ mp, isConfiguredName hw kv.1 = true)
    (h2 : (mp.map Prod.fst).Nodup)
    (h3 : (objsOf hw mp).Nodup)
    (h4 : mp ≠ []) :
    (move_motors hw mp).error = none ∧
    (move_motors hw mp).final = pyConvert hw mp ∧
    (move_motors hw mp).final ≠ mp := by
  have hconv : ∀ kv ∈ ([] : List (MotorKey × Rat)), ∃ mo, kv.1 = MotorKey.obj mo := by
    intro kv hk
    cases hk
  have hfresh : ∀ mo ∈ objsOf hw mp,
      MotorKey.obj mo ∉ ([] : List (MotorKey × Rat)).map Prod.fst := by
    intro mo _ hmem
    cases hmem
  have key := move_motors_loop_final hw mp [] [] h1 h2 hconv h3 hfresh
  rw [List.append_nil] at key
  have herr : (move_motors hw mp).error = none := by
    simpa [move_motors] using key.1
  have hfin : (move_motors hw mp).final = pyConvert hw mp := by
    simpa [move_motors] using key.2
  refine ⟨herr, hfin, ?_⟩
  intro he
  rw [hfin] at he
  cases mp with
  | nil => exact h4 rfl
  | cons kv0 mp2 =>
    have hmem : kv0 ∈ pyConvert hw (kv0 :: mp2) := by
      rw [he]
      exact List.mem_cons_self _ _
    obtain ⟨mo, hk⟩ := pyConvert_keys hw _ kv0 hmem
    obtain ⟨s, hs⟩ := isConfiguredName_shape (h1 kv0 (List.mem_cons_self _ _))
    rw [hs] at hk
    exact MotorKey.noConfusion hk

theorem C9_witness :
    (move_motors hwStd mp9).error = none ∧
    (move_motors hwStd mp9).final = pyConvert hwStd mp9 ∧
    (move_motors hwStd mp9).final ≠ mp9 :=
  C9_thm hwStd mp9 (by decide) (by decide) (by decide) (by decide)
